import Mathlib

/-!
Shallow embedding of the hybrid retrieval engine of the AI-Code-Remediation
microservice: the recipe parser, the dual FAISS index store
(`src/vector_store.py`) and the two-tier retriever (`src/retriever.py`).

Text is modelled as `List Char`.  The sentence-transformer encoder is an
abstract parameter `embed : Str → List α` into vectors over an arbitrary
linearly ordered ring `α` (standing for the reals; pretrained, frozen,
deterministic).
A FAISS `IndexFlatL2 + IndexIDMap` over rows `0..n-1` is modelled as exact
nearest-neighbour search by ascending squared L2 distance, ties broken by
ascending row id; `search(q, k)` returns at most `min k n` valid ids (ids
beyond the row count come back as `-1` in FAISS and are dropped by the
callers, which the truncation models).
-/

namespace Remediation

set_option maxRecDepth 20000

/-- Text, as a list of characters (Python `str`). -/
abbrev Str := List Char

/-- Characters stripped by Python `str.strip()` (the code points with the
Unicode whitespace property). -/
def pySpace (c : Char) : Bool :=
  c = ' ' || c = '\t' || c = '\n' || c = '\r' || c = '\x0b' || c = '\x0c' ||
  c = '\x1c' || c = '\x1d' || c = '\x1e' || c = '\x1f' || c = '\x85' || c = '\xa0' ||
  c = '\u1680' || (decide ('\u2000' ≤ c) && decide (c ≤ '\u200A')) ||
  c = '\u2028' || c = '\u2029' || c = '\u202F' || c = '\u205F' || c = '\u3000'

/-- Python `str.strip()`: drop leading and trailing whitespace. -/
def pyStrip (s : Str) : Str :=
  ((s.dropWhile pySpace).reverse.dropWhile pySpace).reverse

/-- A parsed recipe's metadata: `{"cwe": cwe_id, "tags": [], "languages": []}`
in `VectorStore._parse_recipes`; loaded snapshots may carry arbitrary values. -/
structure Metadata where
  cwe : Str
  tags : List Str
  languages : List Str
deriving DecidableEq

/-- One entry of `VectorStore.documents`: `{"metadata": ..., "content": ...}`. -/
structure Document where
  metadata : Metadata
  content : Str
deriving DecidableEq

/-- One recipe file, handled as in `VectorStore._parse_recipes`:
`readline().strip()` must start with `"cwe:"`; the id is the stripped text
after the first colon; the content is everything after the first newline.
A file failing the header check yields `none` (skipped with a warning). -/
def parseFile (f : Str) : Option Document :=
  let first_line := pyStrip (f.takeWhile (fun c => c != '\n'))
  if ("cwe:".data).isPrefixOf first_line then
    let cwe_id := pyStrip ((first_line.dropWhile (fun c => c != ':')).drop 1)
    some { metadata := { cwe := cwe_id, tags := [], languages := [] },
           content := (f.dropWhile (fun c => c != '\n')).drop 1 }
  else none

/-- Model of `VectorStore._parse_recipes`: the corpus directory, as the list of file
contents in glob order; malformed files are skipped, the rest are parsed. -/
def parse_recipes (files : List Str) : List Document :=
  files.filterMap parseFile

/-- Holds iff `_parse_recipes` keeps the file: its stripped first line
starts with `"cwe:"`. -/
def hasHeader (f : Str) : Bool :=
  ("cwe:".data).isPrefixOf (pyStrip (f.takeWhile (fun c => c != '\n')))

/-- The document `_parse_recipes` builds from a kept file. -/
def mkDoc (f : Str) : Document :=
  { metadata :=
      { cwe := pyStrip (((pyStrip (f.takeWhile (fun c => c != '\n'))).dropWhile
          (fun c => c != ':')).drop 1),
        tags := [], languages := [] },
    content := (f.dropWhile (fun c => c != '\n')).drop 1 }

variable {α : Type} [LinearOrderedRing α]

/-- Squared L2 distance between a query vector and a stored row
(FAISS `IndexFlatL2` distance). -/
def dist2 (u v : List α) : α :=
  (List.zipWith (fun a b => (a - b) * (a - b)) u v).sum

/-- Insertion step of the deterministic sort used to model FAISS ranking. -/
def insertLe (le : Nat → Nat → Bool) (a : Nat) : List Nat → List Nat
  | [] => [a]
  | b :: bs => if le a b then a :: b :: bs else b :: insertLe le a bs

/-- Insertion sort of row ids by a boolean comparison. -/
def sortLe (le : Nat → Nat → Bool) : List Nat → List Nat
  | [] => []
  | a :: as => insertLe le a (sortLe le as)

/-- Ranking used by the FAISS model: ascending squared distance to the query,
ties broken by ascending row id. -/
def nnLe (rows : List (List α)) (q : List α) (i j : Nat) : Bool :=
  let di := dist2 q (rows.getD i [])
  let dj := dist2 q (rows.getD j [])
  if di = dj then decide (i ≤ j) else decide (di < dj)

/-- Model of `index.search(q, k)` on a flat id-mapped index with rows `0..n-1`:
the `k` nearest row ids, truncated to the row count (FAISS pads missing
slots with `-1`, which the callers discard). -/
def faissSearch (rows : List (List α)) (q : List α) (k : Nat) : List Nat :=
  (sortLe (nnLe rows q) (List.range rows.length)).take k

/-- Lookup `self.documents[i]` (all ids produced by the searches are in range;
the default is never reached there). -/
def nth (docs : List Document) (i : Nat) : Document :=
  docs.getD i { metadata := { cwe := [], tags := [], languages := [] }, content := [] }

/-- The `VectorStore` state after `__init__`: the frozen encoder, the two
optional indices (`None` until built) and the document table. -/
structure VectorStore (R : Type) where
  embed : Str → List R
  cwe_index : Option (List (List R))
  full_text_index : Option (List (List R))
  documents : List Document

/-- Model of `VectorStore._build_indexes` composed with `_parse_recipes`: on an empty
parse both indices stay `None`; otherwise each document contributes one row
to the cwe index (embedding of its cwe id) and one to the full-text index
(embedding of its content), in document order. -/
def buildStore (embed : Str → List α) (files : List Str) : VectorStore α :=
  if parse_recipes files = [] then
    { embed := embed, cwe_index := none, full_text_index := none, documents := [] }
  else
    { embed := embed,
      cwe_index := some ((parse_recipes files).map (fun d => embed d.metadata.cwe)),
      full_text_index := some ((parse_recipes files).map (fun d => embed d.content)),
      documents := parse_recipes files }

/-- Model of `VectorStore.search_cwe`: empty when the index was never built, else the
documents of the `k` nearest cwe-embedding rows (invalid `-1` slots dropped). -/
def VectorStore.search_cwe (S : VectorStore α) (cwe_id : Str) (k : Nat) : List Document :=
  match S.cwe_index with
  | none => []
  | some rows => (faissSearch rows (S.embed cwe_id) k).map (nth S.documents)

/-- The filtered candidate id list of `search_full_text`: all document ids,
restricted to documents whose `languages` list contains the filter value when
a `{"language": L}` filter is supplied. -/
def candidateIds (S : VectorStore α) (languageFilter : Option Str) : List Nat :=
  match languageFilter with
  | none => List.range S.documents.length
  | some L =>
      (List.range S.documents.length).filter
        (fun i => decide (L ∈ (nth S.documents i).metadata.languages))

/-- The result loop of `search_full_text`: walk the ranked ids, keep members
of the candidate list, and break as soon as `k` results are collected
(`acc` counts results collected so far; with `k = 0` the Python loop never
breaks and keeps every candidate hit). -/
def collectHits (cand : List Nat) (k : Nat) : Nat → List Nat → List Nat
  | _, [] => []
  | acc, i :: is =>
    if i ∈ cand then
      (if acc + 1 = k then [i] else i :: collectHits cand k (acc + 1) is)
    else collectHits cand k acc is

/-- Model of `VectorStore.search_full_text`: empty if the index was never built;
compute the filtered candidate ids, return empty if none; otherwise request
the top `len(candidate_indices)` neighbours of the unfiltered full-text
index and keep, in rank order, the hits that are candidates, stopping at `k`. -/
def VectorStore.search_full_text (S : VectorStore α) (query : Str) (k : Nat)
    (languageFilter : Option Str) : List Document :=
  match S.full_text_index with
  | none => []
  | some rows =>
    if candidateIds S languageFilter = [] then []
    else
      (collectHits (candidateIds S languageFilter) k 0
        (faissSearch rows (S.embed query) (candidateIds S languageFilter).length)).map
        (nth S.documents)

/-- The sentinel returned when no guidance is retrieved or extracted. -/
def sentinel : Str := "No specific guidance found.".data

/-- Index of the leftmost occurrence of `pat` in a text (Python `re.search`
scans positions left to right). -/
def findSub (pat : Str) : Str → Option Nat
  | [] => if pat.isPrefixOf ([] : Str) then some 0 else none
  | c :: cs => if pat.isPrefixOf (c :: cs) then some 0 else (findSub pat cs).map (· + 1)

/-- The character class `[A-Z]` of the section-terminator patterns. -/
def isUpperAZ (c : Char) : Bool := decide ('A' ≤ c) && decide (c ≤ 'Z')

/-- Holds when the remaining text starts with the terminator
`\n\n[A-Z]` of the `(?:\n\n[A-Z]|\Z)` alternative. -/
def sectionBreak : Str → Bool
  | '\n' :: '\n' :: c :: _ => isUpperAZ c
  | _ => false

/-- The non-greedy group of `(.*?)(?:\n\n[A-Z]|\Z)` under `re.DOTALL`: the
shortest prefix whose continuation starts the terminator, or everything when
no terminator occurs (`\Z`). -/
def takeToBreak : Str → Str
  | [] => []
  | c :: cs => if sectionBreak (c :: cs) then [] else c :: takeToBreak cs

/-- Group 1 of `re.search(label ++ "(.*?)(?:\n\n[A-Z]|\Z)", content, re.DOTALL)`:
`none` when the label never occurs. -/
def reGroupAfter (label : Str) (content : Str) : Option Str :=
  (findSub label content).map (fun i => takeToBreak (content.drop (i + label.length)))

/-- Group 1 of `re.search("name: (.*)", content)`: the rest of the line after
the leftmost `"name: "` (without `re.DOTALL`, `.` stops at a newline). -/
def reNameLine (content : Str) : Option Str :=
  (findSub ("name: ".data) content).map
    (fun i => (content.drop (i + 6)).takeWhile (fun c => c != '\n'))

/-- Group 0 of `re.search("Sample Fix Idea.*", content, re.DOTALL)`: from the
leftmost `"Sample Fix Idea"` to the end of the content. -/
def reFixIdea (content : Str) : Option Str :=
  (findSub ("Sample Fix Idea".data) content).map (fun i => content.drop i)

/-- Python `m.group(..).strip() if m else ""`. -/
def optStrip (o : Option Str) : Str := (o.map pyStrip).getD []

/-- Model of `Retriever._extract_focused_context`: pick the four optional fields,
keep the non-empty ones with their labels, and join with a blank line;
the sentinel when none is present. -/
def extract_focused_context (content : Str) : Str :=
  let name := optStrip (reNameLine content)
  let description := optStrip (reGroupAfter ("Short Description:".data) content)
  let checklist := optStrip (reGroupAfter ("Secure Coding Checklist:".data) content)
  let fixIdea := optStrip (reFixIdea content)
  let parts : List Str :=
    (if name = [] then [] else ["**".data ++ name ++ "**".data]) ++
    (if description = [] then [] else [description]) ++
    (if checklist = [] then [] else ["**Checklist:**\n".data ++ checklist]) ++
    (if fixIdea = [] then [] else ["**Fix Idea:**\n".data ++ fixIdea])
  if parts = [] then sentinel else List.intercalate ("\n\n".data) parts

/-- The composite Tier 2 query of `Retriever.retrieve`:
`f"{language} {cwe} {code[:500]}"`. -/
def tier2Query (language cwe code : Str) : Str :=
  language ++ " ".data ++ cwe ++ " ".data ++ code.take 500

/-- Model of `Retriever.retrieve`: Tier 1 queries the cwe index with `k = 1`; only
when it returns no document does Tier 2 query the full-text index with the
composite query, `k = 1` and the language filter; an empty selection yields
the sentinel, otherwise the focused extraction of the selected content. -/
def retrieve (S : VectorStore α) (cwe language code : Str) : Str :=
  let raw_content : Str :=
    match S.search_cwe cwe 1 with
    | d :: _ => d.content
    | [] =>
      match S.search_full_text (tier2Query language cwe code) 1 (some language) with
      | d :: _ => d.content
      | [] => []
  if raw_content = [] then sentinel else extract_focused_context raw_content

/-- The persisted snapshot directory: `cwe.index`, `full_text.index` and
`documents.npy`, written together by `_build_indexes`. -/
structure Snapshot (R : Type) where
  cwe_rows : List (List R)
  full_text_rows : List (List R)
  documents : List Document

/-- Writing the snapshot of a built store (`faiss.write_index` twice plus
`np.save`); only a store whose indices exist ever reaches the write. -/
def saveStore (S : VectorStore α) : Option (Snapshot α) :=
  match S.cwe_index, S.full_text_index with
  | some a, some b => some { cwe_rows := a, full_text_rows := b, documents := S.documents }
  | _, _ => none

/-- Model of `_load_or_build` on an existing snapshot directory: `faiss.read_index`
twice plus `np.load` into a fresh store; the fresh store constructs the same
frozen encoder. -/
def loadStore (embed : Str → List α) (snap : Snapshot α) : VectorStore α :=
  { embed := embed, cwe_index := some snap.cwe_rows,
    full_text_index := some snap.full_text_rows, documents := snap.documents }

/-! ### Helper lemmas -/

theorem insertLe_length (le : Nat → Nat → Bool) (a : Nat) :
    ∀ l : List Nat, (insertLe le a l).length = l.length + 1
  | [] => rfl
  | b :: bs => by
    simp only [insertLe]
    split
    · rfl
    · simp [insertLe_length le a bs]

theorem sortLe_length (le : Nat → Nat → Bool) :
    ∀ l : List Nat, (sortLe le l).length = l.length
  | [] => rfl
  | a :: as => by simp [sortLe, insertLe_length, sortLe_length le as]

theorem mem_insertLe {le : Nat → Nat → Bool} {a x : Nat} :
    ∀ {l : List Nat}, x ∈ insertLe le a l ↔ x = a ∨ x ∈ l
  | [] => by simp [insertLe]
  | b :: bs => by
    simp only [insertLe]
    split
    · simp [List.mem_cons]
    · simp only [List.mem_cons, @mem_insertLe le a x bs]
      tauto

theorem mem_sortLe {le : Nat → Nat → Bool} {x : Nat} :
    ∀ {l : List Nat}, x ∈ sortLe le l ↔ x ∈ l
  | [] => Iff.rfl
  | a :: as => by
    simp only [sortLe, mem_insertLe, @mem_sortLe le x as, List.mem_cons]

/-- When every ranked id is a candidate, the result loop is a plain
truncation: it keeps the first `k - acc` ids. -/
theorem collectHits_of_all_mem (cand : List Nat) (k : Nat) :
    ∀ (l : List Nat) (acc : Nat), (∀ x ∈ l, x ∈ cand) → acc < k →
      collectHits cand k acc l = l.take (k - acc)
  | [], acc, _, _ => by simp [collectHits]
  | i :: is, acc, hall, hacc => by
    have hi : i ∈ cand := hall i (List.mem_cons_self i is)
    by_cases hk : acc + 1 = k
    · have h1 : k - acc = 1 := by omega
      simp [collectHits, hi, hk, h1]
    · have hlt : acc + 1 < k := by omega
      have ih := collectHits_of_all_mem cand k is (acc + 1)
        (fun x hx => hall x (List.mem_cons_of_mem _ hx)) hlt
      have h1 : k - acc = (k - (acc + 1)) + 1 := by omega
      simp [collectHits, hi, hk, ih, h1]

/-- Every id kept by the result loop is a candidate. -/
theorem mem_cand_of_collectHits (cand : List Nat) (k : Nat) :
    ∀ (l : List Nat) (acc x : Nat), x ∈ collectHits cand k acc l → x ∈ cand
  | [], _, x => by simp [collectHits]
  | i :: is, acc, x => by
    by_cases hi : i ∈ cand
    · by_cases hk : acc + 1 = k
      · simp only [collectHits, if_pos hi, if_pos hk]
        intro hx
        simp only [List.mem_singleton] at hx
        subst hx; exact hi
      · simp only [collectHits, if_pos hi, if_neg hk]
        intro hx
        rcases List.mem_cons.mp hx with h | h
        · subst h; exact hi
        · exact mem_cand_of_collectHits cand k is (acc + 1) x h
    · simp only [collectHits, if_neg hi]
      exact mem_cand_of_collectHits cand k is acc x

/-- Lookup `self.documents[i]` is an entry of the table when `i` is in range. -/
theorem nth_mem {docs : List Document} {i : Nat} (h : i < docs.length) :
    nth docs i ∈ docs := by
  unfold nth
  rw [List.getD_eq_getElem _ _ h]
  exact List.getElem_mem h

/-- The map `parseFile` restated through the kept-file predicate. -/
theorem parseFile_eq (f : Str) :
    parseFile f = if hasHeader f then some (mkDoc f) else none := rfl

/-- Whatever the corpus, the document table of a freshly built store is the
parse result. -/
theorem buildStore_documents (embed : Str → List α) (files : List Str) :
    (buildStore embed files).documents = parse_recipes files := by
  unfold buildStore
  split
  · next h => exact h.symm
  · rfl

/-- When no document carries any language tag, a language-filtered full-text
search has an empty candidate set and returns nothing. -/
theorem search_full_text_empty_of_no_languages (S : VectorStore α) (q : Str) (k : Nat)
    (L : Str) (h : ∀ d ∈ S.documents, d.metadata.languages = []) :
    S.search_full_text q k (some L) = [] := by
  unfold VectorStore.search_full_text
  cases hF : S.full_text_index with
  | none => rfl
  | some rows =>
    have hcand : candidateIds S (some L) = [] := by
      unfold candidateIds
      apply List.filter_eq_nil_iff.mpr
      intro i hi
      have hlang : (nth S.documents i).metadata.languages = [] :=
        h _ (nth_mem (List.mem_range.mp hi))
      simp [hlang]
    simp [hcand]

/-! ### Claim theorems -/

/-- C3: `retrieve` runs Tier 2 exactly when Tier 1 (`search_cwe` with
`k = 1`) returns no document; the Tier 2 query is the language, a space,
the weakness id, a space, and the first 500 characters of the code, with
`k = 1` and the language as filter; either tier's selection is extracted,
and an empty selection (or no selection at all) yields the sentinel. -/
theorem retrieve_two_tier_structure (S : VectorStore α) (cwe language code : Str) :
    retrieve S cwe language code =
      match S.search_cwe cwe 1 with
      | d :: _ => if d.content = [] then sentinel else extract_focused_context d.content
      | [] =>
        match S.search_full_text (language ++ " ".data ++ cwe ++ " ".data ++ code.take 500)
            1 (some language) with
        | d :: _ => if d.content = [] then sentinel else extract_focused_context d.content
        | [] => sentinel := by
  simp only [retrieve, tier2Query]
  cases h1 : S.search_cwe cwe 1 with
  | cons d t => rfl
  | nil =>
    cases h2 : S.search_full_text (language ++ " ".data ++ cwe ++ " ".data ++ code.take 500)
        1 (some language) with
    | cons d t => rfl
    | nil => rfl

/-- Witness for C3 at a concrete empty store. -/
theorem retrieve_two_tier_structure_witness :
    retrieve (buildStore (fun _ => ([0] : List ℤ)) []) ("CWE-89".data) ("java".data) ("x".data) =
      match (buildStore (fun _ => ([0] : List ℤ)) []).search_cwe ("CWE-89".data) 1 with
      | d :: _ => if d.content = [] then sentinel else extract_focused_context d.content
      | [] =>
        match (buildStore (fun _ => ([0] : List ℤ)) []).search_full_text
            ("java".data ++ " ".data ++ "CWE-89".data ++ " ".data ++ ("x".data).take 500)
            1 (some ("java".data)) with
        | d :: _ => if d.content = [] then sentinel else extract_focused_context d.content
        | [] => sentinel :=
  retrieve_two_tier_structure (buildStore (fun _ => ([0] : List ℤ)) []) ("CWE-89".data)
    ("java".data) ("x".data)

/-- C5 counterexample: the parser's header keyword is `cwe:`, not
`weakness:`.  A file whose first line matches `weakness: <id>` is skipped,
while the same file with a `cwe: <id>` first line is parsed. -/
theorem c5_counterexample :
    parse_recipes [("weakness: CWE-79\nUse X.".data)] = [] ∧
    parse_recipes [("cwe: CWE-79\nUse X.".data)] =
      [{ metadata := { cwe := "CWE-79".data, tags := [], languages := [] },
         content := "Use X.".data }] := by
  constructor
  · rfl
  · rfl

/-- C5 (amended): during corpus parsing, a file whose stripped first line
does not start with `cwe:` is skipped and excluded from the document list,
no error is ever raised (the parse is a total function), and the remaining
well-formed files are all parsed into documents, in order. -/
theorem parse_recipes_skips_malformed (files : List Str) :
    parse_recipes files = (files.filter hasHeader).map mkDoc := by
  induction files with
  | nil => rfl
  | cons f fs ih =>
    by_cases h : hasHeader f
    · simp only [parse_recipes, List.filterMap_cons, parseFile_eq, if_pos h,
        List.filter_cons_of_pos h, List.map_cons]
      exact congrArg _ ih
    · simp only [parse_recipes, List.filterMap_cons, parseFile_eq, if_neg h,
        List.filter_cons_of_neg h]
      exact ih

/-- Witness for C5 (amended): one malformed and one well-formed file. -/
theorem parse_recipes_skips_malformed_witness :
    parse_recipes [("no header\nbody".data), ("cwe: CWE-22\nbody".data)] =
      (([("no header\nbody".data), ("cwe: CWE-22\nbody".data)]).filter hasHeader).map
        mkDoc :=
  parse_recipes_skips_malformed [("no header\nbody".data), ("cwe: CWE-22\nbody".data)]

/-- C6: on an empty corpus (no valid recipe file) neither index is created,
both searches return the empty list for every query and every `k`, and
`retrieve` returns exactly the sentinel for every input triple; nothing
raises an error (all the operations are total). -/
theorem empty_corpus_total_sentinel (embed : Str → List α) (files : List Str)
    (h : parse_recipes files = []) :
    (buildStore embed files).cwe_index = none ∧
    (buildStore embed files).full_text_index = none ∧
    (∀ q k, (buildStore embed files).search_cwe q k = []) ∧
    (∀ q k f, (buildStore embed files).search_full_text q k f = []) ∧
    (∀ c l code, retrieve (buildStore embed files) c l code = sentinel) := by
  have hS : buildStore embed files =
      { embed := embed, cwe_index := none, full_text_index := none, documents := [] } := by
    simp [buildStore, h]
  rw [hS]
  exact ⟨rfl, rfl, fun q k => rfl, fun q k f => rfl, fun c l code => rfl⟩

/-- Witness for C6 at a corpus with one malformed file. -/
theorem empty_corpus_total_sentinel_witness :
    (buildStore (fun _ => ([0] : List ℤ)) [("not a recipe".data)]).cwe_index = none ∧
    (buildStore (fun _ => ([0] : List ℤ)) [("not a recipe".data)]).search_cwe ("CWE-89".data) 1 = [] ∧
    (buildStore (fun _ => ([0] : List ℤ)) [("not a recipe".data)]).search_full_text ("q".data) 1
      (some ("java".data)) = [] ∧
    retrieve (buildStore (fun _ => ([0] : List ℤ)) [("not a recipe".data)]) ("CWE-89".data)
      ("java".data) ("x".data) = sentinel := by
  have h := empty_corpus_total_sentinel (fun _ => ([0] : List ℤ)) [("not a recipe".data)] (by rfl)
  exact ⟨h.1, h.2.2.1 _ _, h.2.2.2.1 _ _ _, h.2.2.2.2 _ _ _⟩

/-- C8: a store built from a non-empty corpus has as many rows in each of
the two indices as documents in the table, and every document id is a valid
row id in both indices. -/
theorem built_store_counts (embed : Str → List α) (files : List Str)
    (h : parse_recipes files ≠ []) :
    ∃ a b, (buildStore embed files).cwe_index = some a ∧
      (buildStore embed files).full_text_index = some b ∧
      a.length = (buildStore embed files).documents.length ∧
      b.length = (buildStore embed files).documents.length ∧
      ∀ i, i < (buildStore embed files).documents.length → i < a.length ∧ i < b.length := by
  refine ⟨(parse_recipes files).map (fun d => embed d.metadata.cwe),
          (parse_recipes files).map (fun d => embed d.content), ?_, ?_, ?_, ?_, ?_⟩ <;>
    simp [buildStore, h]

/-- Witness for C8 at a one-file corpus. -/
theorem built_store_counts_witness :
    ∃ a b, (buildStore (fun _ => ([0] : List ℤ)) [("cwe: CWE-89\nbody".data)]).cwe_index = some a ∧
      (buildStore (fun _ => ([0] : List ℤ)) [("cwe: CWE-89\nbody".data)]).full_text_index = some b ∧
      a.length = (buildStore (fun _ => ([0] : List ℤ)) [("cwe: CWE-89\nbody".data)]).documents.length ∧
      b.length = (buildStore (fun _ => ([0] : List ℤ)) [("cwe: CWE-89\nbody".data)]).documents.length ∧
      ∀ i, i < (buildStore (fun _ => ([0] : List ℤ)) [("cwe: CWE-89\nbody".data)]).documents.length →
        i < a.length ∧ i < b.length :=
  built_store_counts (fun _ => ([0] : List ℤ)) [("cwe: CWE-89\nbody".data)] (by decide)

/-- C9: saving a built store's snapshot and loading it into a fresh store
(same frozen encoder) yields identical results for every `search_cwe` and
every `search_full_text` query. -/
theorem save_load_round_trip (S : VectorStore α) (snap : Snapshot α)
    (h : saveStore S = some snap) :
    (∀ q k, (loadStore S.embed snap).search_cwe q k = S.search_cwe q k) ∧
    (∀ q k f, (loadStore S.embed snap).search_full_text q k f =
      S.search_full_text q k f) := by
  obtain ⟨e, ci, fi, docs⟩ := S
  rcases ci with _ | a
  · simp [saveStore] at h
  rcases fi with _ | b
  · simp [saveStore] at h
  simp only [saveStore] at h
  injection h with h2
  subst h2
  exact ⟨fun q k => rfl, fun q k f => rfl⟩

/-- Witness for C9 at a concrete one-document store. -/
theorem save_load_round_trip_witness :
    (loadStore
        (VectorStore.mk (fun _ => ([0] : List ℤ)) (some [[0]]) (some [[0]])
          [{ metadata := { cwe := "CWE-89".data, tags := [], languages := [] },
             content := "body".data }]).embed
        { cwe_rows := [[0]], full_text_rows := [[0]],
          documents := [{ metadata := { cwe := "CWE-89".data, tags := [], languages := [] },
                          content := "body".data }] }).search_cwe ("CWE-89".data) 1 =
      (VectorStore.mk (fun _ => ([0] : List ℤ)) (some [[0]]) (some [[0]])
        [{ metadata := { cwe := "CWE-89".data, tags := [], languages := [] },
           content := "body".data }]).search_cwe ("CWE-89".data) 1 :=
  (save_load_round_trip
      (VectorStore.mk (fun _ => ([0] : List ℤ)) (some [[0]]) (some [[0]])
        [{ metadata := { cwe := "CWE-89".data, tags := [], languages := [] },
           content := "body".data }])
      { cwe_rows := [[0]], full_text_rows := [[0]],
        documents := [{ metadata := { cwe := "CWE-89".data, tags := [], languages := [] },
                        content := "body".data }] } rfl).1 ("CWE-89".data) 1

/-- C4: every document the recipe parser produces has an empty `tags` set
and an empty `languages` set; consequently a store built by parsing the
corpus returns the empty list from `search_full_text` under any non-null
language filter, for every query and every `k` — the filtered candidate set
is always empty. -/
theorem parser_empty_metadata_filter_empty (files : List Str) (embed : Str → List α) :
    (∀ d ∈ parse_recipes files, d.metadata.tags = [] ∧ d.metadata.languages = []) ∧
    ∀ (q : Str) (k : Nat) (L : Str),
      (buildStore embed files).search_full_text q k (some L) = [] := by
  have hmeta : ∀ d ∈ parse_recipes files,
      d.metadata.tags = [] ∧ d.metadata.languages = [] := by
    intro d hd
    rw [parse_recipes, List.mem_filterMap] at hd
    obtain ⟨f, -, hf⟩ := hd
    rw [parseFile_eq] at hf
    split at hf
    · injection hf with h2
      subst h2
      exact ⟨rfl, rfl⟩
    · cases hf
  refine ⟨hmeta, fun q k L => ?_⟩
  apply search_full_text_empty_of_no_languages
  intro d hd
  rw [buildStore_documents] at hd
  exact (hmeta d hd).2

/-- Witness for C4 at a one-file corpus. -/
theorem parser_empty_metadata_filter_empty_witness :
    (nth (parse_recipes [("cwe: CWE-89\nbody".data)]) 0).metadata.tags = [] ∧
    (nth (parse_recipes [("cwe: CWE-89\nbody".data)]) 0).metadata.languages = [] ∧
    (buildStore (fun _ => ([0] : List ℤ)) [("cwe: CWE-89\nbody".data)]).search_full_text
      ("q".data) 1 (some ("java".data)) = [] := by
  have h := parser_empty_metadata_filter_empty [("cwe: CWE-89\nbody".data)] (fun _ => ([0] : List ℤ))
  have hm := h.1 _ (show nth (parse_recipes [("cwe: CWE-89\nbody".data)]) 0 ∈
    parse_recipes [("cwe: CWE-89\nbody".data)] by decide)
  exact ⟨hm.1, hm.2, h.2 ("q".data) 1 ("java".data)⟩

/-- C7: every document in the (possibly empty) result of a
language-filtered `search_full_text` has the filter language in its
`languages` set — for every store, query, bound and language. -/
theorem search_full_text_filter_correct (S : VectorStore α) (q : Str) (k : Nat) (L : Str)
    (d : Document) (hd : d ∈ S.search_full_text q k (some L)) :
    L ∈ d.metadata.languages := by
  unfold VectorStore.search_full_text at hd
  split at hd
  · exact absurd hd (List.not_mem_nil d)
  · split at hd
    · exact absurd hd (List.not_mem_nil d)
    · rw [List.mem_map] at hd
      obtain ⟨i, hi, rfl⟩ := hd
      have hic : i ∈ candidateIds S (some L) := mem_cand_of_collectHits _ _ _ _ _ hi
      simp only [candidateIds] at hic
      rw [List.mem_filter] at hic
      exact of_decide_eq_true hic.2

/-- Witness for C7 at a store whose single document is tagged `java`. -/
theorem search_full_text_filter_correct_witness :
    "java".data ∈
      ({ metadata := { cwe := "CWE-79".data, tags := [], languages := ["java".data] },
         content := "body".data } : Document).metadata.languages :=
  search_full_text_filter_correct
    (VectorStore.mk (fun _ => ([0] : List ℤ)) (some [[0]]) (some [[0]])
      [{ metadata := { cwe := "CWE-79".data, tags := [], languages := ["java".data] },
         content := "body".data }])
    ("q".data) 1 ("java".data) _ (by decide)

/-- The single-document store of claim C2's scenario: a `CWE-79` recipe
whose languages set is `{python}` (such metadata can only come from a
loaded snapshot, since the parser always writes empty language lists). -/
def c2Doc : Document :=
  { metadata := { cwe := "CWE-79".data, tags := [], languages := ["python".data] },
    content := "name: XSS\n".data }

def c2Store : VectorStore ℤ :=
  { embed := fun _ => [0], cwe_index := some [[0]], full_text_index := some [[0]],
    documents := [c2Doc] }

/-- C2 counterexample: on a corpus whose only document is a `CWE-79` recipe
with `languages = {python}`, `retrieve("CWE-89", "java", c)` does NOT return
the sentinel: Tier 1's nearest-neighbour search has no exactness check and
always returns the only document, so the extraction of its content
(here `**XSS**`) is returned and Tier 2's language filter never runs. -/
theorem c2_counterexample :
    retrieve c2Store ("CWE-89".data) ("java".data) ("code".data) = "**XSS**".data ∧
    "**XSS**".data ≠ sentinel ∧
    c2Store.documents = [c2Doc] ∧
    c2Doc.metadata.cwe = "CWE-79".data ∧
    c2Doc.metadata.languages = ["python".data] := by
  refine ⟨by decide, by decide, rfl, rfl, rfl⟩

/-- C2 (amended): with a single-document corpus (the `CWE-79` document
tagged `languages={python}` of the scenario), Tier 1's nearest-neighbour
search returns that document for every queried weakness id, so
`retrieve("CWE-89", "java", c)` returns the extraction of the document's
content for every code string `c` (the sentinel only when that content is
empty); Tier 2 and its language filter are never consulted. -/
theorem retrieve_single_doc_tier1_always_hits
    (S : VectorStore α) (d : Document) (v : List α)
    (hdocs : S.documents = [d]) (hcwe : S.cwe_index = some [v])
    (h79 : d.metadata.cwe = "CWE-79".data)
    (hlang : d.metadata.languages = ["python".data]) (c : Str) :
    retrieve S ("CWE-89".data) ("java".data) c =
      if d.content = [] then sentinel else extract_focused_context d.content := by
  have hsearch : S.search_cwe ("CWE-89".data) 1 = [d] := by
    unfold VectorStore.search_cwe
    rw [hcwe, hdocs]
    rfl
  simp only [retrieve, hsearch]

/-- Witness for C2 (amended) at the scenario store. -/
theorem retrieve_single_doc_tier1_always_hits_witness :
    retrieve c2Store ("CWE-89".data) ("java".data) ("code".data) =
      if c2Doc.content = [] then sentinel else extract_focused_context c2Doc.content :=
  retrieve_single_doc_tier1_always_hits c2Store c2Doc [0] rfl rfl rfl rfl ("code".data)

/-- A two-document store where only the *second*, farther document is
tagged `java`: the candidate set is `{1}`, so `N = 1`, and the unfiltered
top-1 is document 0, which the filter discards. -/
def c1Store : VectorStore ℤ :=
  { embed := fun s => if s = ("B".data) then [10] else [0],
    cwe_index := some [[0], [10]],
    full_text_index := some [[0], [10]],
    documents :=
      [{ metadata := { cwe := "CWE-1".data, tags := [], languages := [] },
         content := "A".data },
       { metadata := { cwe := "CWE-2".data, tags := [], languages := ["java".data] },
         content := "B".data }] }

/-- C1 counterexample: the candidate set is nonempty (`{1}`) and `k = 1`,
yet the search-then-filter policy returns the empty list, omitting the true
nearest member of the candidate set — requesting only `N = |candidates|`
neighbours of the unfiltered index is not enough when the candidate set is a
proper subset of the corpus. -/
theorem c1_counterexample :
    c1Store.search_full_text ("q".data) 1 (some ("java".data)) = [] ∧
    candidateIds c1Store (some ("java".data)) = [1] ∧
    "java".data ∈ (nth c1Store.documents 1).metadata.languages := by
  refine ⟨by decide, by decide, by decide⟩

/-- C1 (amended): the search-then-filter policy returns exactly the `k`
nearest members of the candidate set whenever the candidate set is the whole
corpus (every document carries the filter language), for any `k ≥ 1`; when
the candidate set is a proper subset it can omit true top-`k` members (see
the counterexample). -/
theorem search_full_text_exact_when_filter_total
    (S : VectorStore α) (rows : List (List α)) (q L : Str) (k : Nat)
    (hidx : S.full_text_index = some rows)
    (hlen : rows.length = S.documents.length)
    (hall : ∀ d ∈ S.documents, L ∈ d.metadata.languages)
    (hk : 1 ≤ k) :
    S.search_full_text q k (some L) =
      (faissSearch rows (S.embed q) k).map (nth S.documents) := by
  have hcand : candidateIds S (some L) = List.range S.documents.length := by
    simp only [candidateIds]
    apply List.filter_eq_self.mpr
    intro i hi
    exact decide_eq_true (hall _ (nth_mem (List.mem_range.mp hi)))
  unfold VectorStore.search_full_text
  simp only [hidx]
  rw [hcand]
  by_cases hn : S.documents.length = 0
  · rw [if_pos (by simp [List.range_eq_nil, hn])]
    have hrows : rows.length = 0 := by rw [hlen, hn]
    simp [faissSearch, List.range_eq_nil.mpr hrows, sortLe]
  · rw [if_neg (by simp [List.range_eq_nil, hn])]
    have hsortlen : (sortLe (nnLe rows (S.embed q)) (List.range rows.length)).length =
        rows.length := by
      rw [sortLe_length, List.length_range]
    have hfull : faissSearch rows (S.embed q) ((List.range S.documents.length).length) =
        sortLe (nnLe rows (S.embed q)) (List.range rows.length) := by
      rw [List.length_range, ← hlen, faissSearch]
      exact List.take_of_length_le (le_of_eq hsortlen)
    rw [hfull]
    have hmem : ∀ x ∈ sortLe (nnLe rows (S.embed q)) (List.range rows.length),
        x ∈ List.range S.documents.length := by
      intro x hx
      rw [mem_sortLe] at hx
      rwa [hlen] at hx
    rw [collectHits_of_all_mem _ _ _ _ hmem (by omega), Nat.sub_zero]
    rfl

/-- The `c1Store` corpus with both documents tagged `java`: the candidate
set is total, so the policy is exact. -/
def c1AllStore : VectorStore ℤ :=
  { embed := fun s => if s = ("B".data) then [10] else [0],
    cwe_index := some [[0], [10]],
    full_text_index := some [[0], [10]],
    documents :=
      [{ metadata := { cwe := "CWE-1".data, tags := [], languages := ["java".data] },
         content := "A".data },
       { metadata := { cwe := "CWE-2".data, tags := [], languages := ["java".data] },
         content := "B".data }] }

/-- Witness for C1 (amended) at a store where every document matches the
filter. -/
theorem search_full_text_exact_when_filter_total_witness :
    c1AllStore.search_full_text ("q".data) 1 (some ("java".data)) =
      (faissSearch [[0], [10]] (c1AllStore.embed ("q".data)) 1).map
        (nth c1AllStore.documents) :=
  search_full_text_exact_when_filter_total c1AllStore [[0], [10]] ("q".data)
    ("java".data) 1 rfl (by decide) (by decide) (by decide)

/-- Scenario A's recipe file, with the header keyword the code actually
requires (`cwe:`). -/
def c10File : Str :=
  ("cwe: CWE-89\nname: SQLi\n\nShort Description:\nUse parameterized queries.\n\nSecure Coding Checklist:\n- validate input\n\nSample Fix Idea\nUse prepared statements.").data

/-- Scenario A's recipe file with the header keyword claimed by the spec
(`weakness:`), which the parser rejects. -/
def c10BadFile : Str :=
  ("weakness: CWE-89\nname: SQLi\n\nShort Description:\nUse parameterized queries.\n\nSecure Coding Checklist:\n- validate input\n\nSample Fix Idea\nUse prepared statements.").data

/-- The context string `retrieve` produces for Scenario A's document. -/
def c10Result : Str :=
  ("**SQLi**\n\nUse parameterized queries.\n\n**Checklist:**\n- validate input\n\n**Fix Idea:**\nSample Fix Idea\nUse prepared statements.").data

/-- C10 counterexample: with the header `weakness: CWE-89` the file is
skipped by the parser (the code requires `cwe:`), the corpus is empty and
`retrieve` returns the bare sentinel, which contains none of the claimed
fragments. -/
theorem c10_counterexample :
    retrieve (buildStore (fun _ => ([0] : List ℤ)) [c10BadFile]) ("CWE-89".data) ("java".data)
      ("x".data) = sentinel ∧
    ¬ List.IsInfix ("**SQLi**".data) sentinel := by
  refine ⟨rfl, by decide⟩

/-- C10 (amended): with the header `cwe: CWE-89` (and the body of
Scenario A), `retrieve("CWE-89", "java", code)` returns, for every code
string and every encoder, a string containing `**SQLi**`,
"Use parameterized queries.", `**Checklist:**` + newline + `- validate
input`, and `**Fix Idea:**` + newline + `Sample Fix Idea` + newline +
`Use prepared statements.`. -/
theorem scenario_a_extraction (emb : Str → List α) (code : Str) :
    retrieve (buildStore emb [c10File]) ("CWE-89".data) ("java".data) code = c10Result ∧
    List.IsInfix ("**SQLi**".data) c10Result ∧
    List.IsInfix ("Use parameterized queries.".data) c10Result ∧
    List.IsInfix ("**Checklist:**\n- validate input".data) c10Result ∧
    List.IsInfix ("**Fix Idea:**\nSample Fix Idea\nUse prepared statements.".data)
      c10Result := by
  refine ⟨?_, by decide, by decide, by decide, by decide⟩
  rfl

/-- Witness for C10 (amended) at a concrete encoder and code string. -/
theorem scenario_a_extraction_witness :
    retrieve (buildStore (fun _ => ([0] : List ℤ)) [c10File]) ("CWE-89".data) ("java".data)
      ("x".data) = c10Result :=
  (scenario_a_extraction (fun _ => ([0] : List ℤ)) ("x".data)).1

end Remediation
